import Mathlib

/-!
Shallow embedding of `pslearn/feature_selection.py` (particle-swarm
feature selection with cross-validated scoring).

Modelling conventions:
* floating point values are modelled by `ℚ`;
* the particle matrix and the velocity matrix are `List (List ℚ)`
  (rows = particles, columns = features);
* the external randomness (`np.random`) is passed in explicitly: the
  initial particle matrix is a parameter of `psfsFit`, and the per-pass,
  per-row decoding thresholds are a function of the current loop counter
  and the row index;
* the external cross-validation collaborator (`cross_val_score`) is an
  oracle `Mat → List ℚ` receiving the column-restricted input matrix and
  returning the list of per-fold scores; every call made to it is logged;
* Python exceptions are modelled with `Except String`;
* Python dict keys are heterogeneous tuples; the membership test
  `particle in self.candidates_score` compares a bare tuple of ints to
  compound `(row, subset)` keys, so tuple values are mirrored by the
  `PyObj` type with structural equality `PyObj.beq`.
-/

set_option allowUnsafeReducibility true

attribute [semireducible] Rat.add Rat.mul Rat.inv Rat.sub Rat.div Rat.neg

/-- Decidable equality of `Except` results, used to evaluate runs of the
embedding on concrete inputs. -/
instance {ε α : Type} [DecidableEq ε] [DecidableEq α] :
    DecidableEq (Except ε α)
  | Except.error x, Except.error y => decidable_of_iff (x = y) (by simp)
  | Except.ok x, Except.ok y => decidable_of_iff (x = y) (by simp)
  | Except.error _, Except.ok _ => isFalse fun h => Except.noConfusion h
  | Except.ok _, Except.error _ => isFalse fun h => Except.noConfusion h

namespace PSOpt

/-- A matrix of rationals (list of rows). -/
abbrev Mat := List (List ℚ)

/-- A decoded feature subset: the selected column indices in column order
(the Python code builds `tuple(vals[is_selected].index)`). -/
abbrev Subset := List Nat

/-- A key of `candidates_score`: the pair `(row index, subset)` used at
the insertion site `self.candidates_score[(i, particle)] = ...`. -/
abbrev Key := Nat × Subset

/-- The cumulative evaluation record `self.candidates_score`, kept in
insertion order like a Python dict. -/
abbrev Record := List (Key × ℚ)

/-- One logged call to the cross-validation collaborator: the row index,
the decoded subset, and the column-restricted matrix handed to it. -/
abbrev Call := Nat × Subset × Mat

/-- Python values as seen by the `isinstance` checks of the
constructors: an int, a str, a float, or any other object. -/
inductive PyVal where
  | int : Int → PyVal
  | str : String → PyVal
  | float : ℚ → PyVal
  | obj : PyVal
deriving DecidableEq

/-- `isinstance(v, int)`. -/
def PyVal.isInt : PyVal → Bool
  | .int _ => true
  | _ => false

/-- `isinstance(v, str)`. -/
def PyVal.isStr : PyVal → Bool
  | .str _ => true
  | _ => false

/-- Python tuple/int values, used to model the equality semantics of
dict-key comparison (`particle in self.candidates_score`). -/
inductive PyObj where
  | int : Int → PyObj
  | tup : List PyObj → PyObj

mutual

/-- Python `==` on tuple/int values. -/
def PyObj.beq : PyObj → PyObj → Bool
  | PyObj.int a, PyObj.int b => a == b
  | PyObj.tup a, PyObj.tup b => PyObj.beqList a b
  | _, _ => false

/-- Python `==` on tuples, elementwise. -/
def PyObj.beqList : List PyObj → List PyObj → Bool
  | [], [] => true
  | x :: xs, y :: ys => PyObj.beq x y && PyObj.beqList xs ys
  | _, _ => false

end

/-- The Python tuple of ints representing a decoded subset. -/
def subsetObj (s : Subset) : PyObj := .tup (s.map fun j => .int j)

/-- The Python tuple `(i, subset)` used as a `candidates_score` key. -/
def keyObj (k : Key) : PyObj := .tup [.int k.1, subsetObj k.2]

/-- The membership test `particle not in self.candidates_score`, negated:
the bare subset tuple is compared against every compound key of the
record with Python equality. -/
def pyMem (r : Record) (s : Subset) : Bool :=
  r.any fun kv => PyObj.beq (keyObj kv.1) (subsetObj s)

/-- Python dict assignment `d[k] = v`: overwrite in place when the key is
present, append otherwise. -/
def dictInsert (r : Record) (k : Key) (v : ℚ) : Record :=
  if r.any fun kv => kv.1 = k then
    r.map fun kv => if kv.1 = k then (k, v) else kv
  else
    r ++ [(k, v)]

/-- `pandas.DataFrame.idxmax` composed with `.max` over the record held
in insertion order: the first entry attaining the maximal score, `none`
on an empty record (where pandas raises
`ValueError: attempt to get argmax of an empty sequence`). -/
def dictArgmax : Record → Option (Key × ℚ)
  | [] => none
  | kv :: rest =>
    match dictArgmax rest with
    | none => some kv
    | some best => if kv.2 < best.2 then some best else some kv

/-- `cv_score.mean()`. -/
def mean (l : List ℚ) : ℚ := l.sum / l.length

/-- `X[:, particle]`: the input matrix restricted to the selected
columns, in subset order. -/
def restrictCols (X : Mat) (s : Subset) : Mat :=
  X.map fun row => s.map fun j => row.getD j 0

/-- `is_selected = vals >= np.random.random(); tuple(vals[is_selected].index)`:
the indices whose probability is at least the drawn threshold, in column
order. -/
def decode (vals : List ℚ) (thr : ℚ) : Subset :=
  (vals.enum.filter fun p => thr ≤ p.2).map Prod.fst

/-- The body of the `for i, vals in particles.iterrows()` loop of
`_Evaluation._evaluate_performance`: decode the row, and when
`any(particle)` holds (some selected index is truthy, i.e. nonzero) and
the bare subset is not found among the record keys, call the collaborator
on the restricted matrix, record the mean fold score under `(i, subset)`,
and log the call. -/
def evalStep (X : Mat) (cvOracle : Mat → List ℚ) (i : Nat) (vals : List ℚ)
    (thr : ℚ) (acc : Record × List Call) : Record × List Call :=
  let subset := decode vals thr
  if (subset.any fun j => j != 0) && !(pyMem acc.1 subset) then
    let arg := restrictCols X subset
    (dictInsert acc.1 (i, subset) (mean (cvOracle arg)),
     acc.2 ++ [(i, subset, arg)])
  else acc

/-- `_Evaluation._evaluate_performance`: fold `evalStep` over the rows of
the particle matrix (row labels are the positions), starting from the
carried-over record; also returns the calls made during this pass. -/
def evaluatePass (X : Mat) (cvOracle : Mat → List ℚ) (thr : Nat → ℚ)
    (particles : Mat) (record : Record) : Record × List Call :=
  particles.enum.foldl (fun acc p => evalStep X cvOracle p.1 p.2 (thr p.1) acc)
    (record, [])

/-- `_Communication._update_global_best`: take the argmax of the
cumulative record (pandas raises on an empty record); replace the global
best when it is undefined or strictly beaten, keep it otherwise. -/
def updateGlobalBest (results : Record) (gb : Option ℚ) (gbp : Option Key) :
    Except String (Option ℚ × Option Key) :=
  match dictArgmax results with
  | none => .error "attempt to get argmax of an empty sequence"
  | some (ck, cb) =>
    let isNotDefined := gb.isNone && gbp.isNone
    let isBetter := match gb with
      | none => true
      | some g => decide (g < cb)
    if isNotDefined || isBetter then .ok (some cb, some ck) else .ok (gb, gbp)

/-- `_Communication._calculate_velocities`:
`(particles.loc[gbp[0]] - particles) / max_iter`, row by row. -/
def calcVelocities (particles : Mat) (gbp : Key) (maxIter : Int) : Mat :=
  let gbRow := particles.getD gbp.1 []
  particles.map fun row =>
    List.zipWith (fun g p => (g - p) / (maxIter : ℚ)) gbRow row

/-- Elementwise matrix addition, `particles += velocities`. -/
def matAdd (a b : Mat) : Mat := List.zipWith (List.zipWith (· + ·)) a b

/-- A zero matrix of the same shape, `np.zeros(particles.shape)`. -/
def zerosLike (a : Mat) : Mat := a.map (List.map fun _ => (0 : ℚ))

/-- The loop-carried state of `fit`, together with the observation
traces (collaborator calls, completed passes). -/
structure PSState where
  particles : Mat
  velocities : Mat
  globalBest : Option ℚ
  globalBestParticle : Option Key
  record : Record
  calls : List Call
  passes : Nat
deriving DecidableEq

/-- One pass of the `while self.n_iter > 0` loop of `fit`, with the
current counter value `nIter`: position update, evaluation, global-best
update, velocity recomputation (dividing by the counter value before it
is decremented). Subscripting an undefined global-best particle raises a
`TypeError` in Python, modelled as an error. -/
def fitStep (X : Mat) (cvOracle : Mat → List ℚ) (thr : Nat → ℚ) (nIter : Int)
    (s : PSState) : Except String PSState :=
  let particles := matAdd s.particles s.velocities
  let er := evaluatePass X cvOracle thr particles s.record
  match updateGlobalBest er.1 s.globalBest s.globalBestParticle with
  | .error e => .error e
  | .ok (gb, gbp) =>
    match gbp with
    | none => .error "TypeError: NoneType object is not subscriptable"
    | some k =>
      .ok { particles := particles
            velocities := calcVelocities particles k nIter
            globalBest := gb
            globalBestParticle := gbp
            record := er.1
            calls := s.calls ++ er.2
            passes := s.passes + 1 }

/-- The `while self.n_iter > 0` loop, by recursion on the number of
remaining passes; the counter value passed to the step with fuel `n + 1`
is `n + 1` (the pre-decrement value), and the loop stops exactly when the
fuel reaches zero. -/
def fitLoop (X : Mat) (cvOracle : Mat → List ℚ) (thrs : Nat → Nat → ℚ) :
    Nat → PSState → Except String PSState
  | 0, s => .ok s
  | n + 1, s =>
    match fitStep X cvOracle (thrs (n + 1)) ((n : Int) + 1) s with
    | .error e => .error e
    | .ok s' => fitLoop X cvOracle thrs n s'

/-- The attributes of a `ParticleSwarmFeatureSelectionCV` instance,
together with the observation traces of the latest `fit` call
(`trace_calls`, `trace_passes`, `trace_particles` are not Python
attributes; they record the collaborator calls, the completed passes and
the final particle matrix of that call). -/
structure PSFS where
  n_particles : Int
  cv : Int
  scoring : String
  n_jobs : Int
  verbosity : Int
  n_iter : Int
  first_iter : Int
  candidates_score : Record
  best_score_ : Option ℚ
  best_features_ : Option Subset
  best_proba_ : Option (List ℚ)
  trace_calls : List Call
  trace_passes : Nat
  trace_particles : Mat
deriving DecidableEq

/-- `ParticleSwarmFeatureSelectionCV.__init__`: the `isinstance` checks,
in source order (`max_iter` first, then the `_Initialization`,
`_Evaluation` and `_Communication` constructors); the estimator is never
inspected, and no positivity is checked. -/
def psfsInit (n_particles estimator cv scoring max_iter n_jobs verbosity :
    PyVal) : Except String PSFS :=
  match max_iter with
  | .int mi =>
    match n_particles with
    | .int np =>
      match verbosity with
      | .int vb =>
        match cv with
        | .int cvv =>
          match scoring with
          | .str sc =>
            match n_jobs with
            | .int nj =>
              .ok { n_particles := np
                    cv := cvv
                    scoring := sc
                    n_jobs := nj
                    verbosity := vb
                    n_iter := mi
                    first_iter := mi
                    candidates_score := []
                    best_score_ := none
                    best_features_ := none
                    best_proba_ := none
                    trace_calls := []
                    trace_passes := 0
                    trace_particles := [] }
            | _ => .error "Argument n_jobs only accept integer as input."
          | _ => .error "Argument cv only accept string as input."
        | _ => .error "Argument cv only accept integer as input."
      | _ => .error "Argument verbosity only accept integer as input."
    | _ => .error "Argument n_particles only accept integer as input."
  | _ => .error "Argument max_iter only accept integer as input."

/-- `ParticleSwarmFeatureSelectionCV.fit`: start from the initial draws
(`initP`, the `np.random.random((n_particles, F))` matrix), a zero
velocity matrix and an undefined global best; run the loop for
`n_iter.toNat` passes; afterwards read `best_proba_` from the particle
matrix at row `gbp[0]` restricted to the columns `gbp[1]`, set
`best_features_` and `best_score_`, and leave `n_iter` at the value the
loop left it (0 when the budget was positive). `estimator` is ignored
because scoring is delegated to the oracle. -/
def psfsFit (m : PSFS) (X : Mat) (initP : Mat) (thrs : Nat → Nat → ℚ)
    (cvOracle : Mat → List ℚ) : Except String PSFS :=
  let s0 : PSState :=
    { particles := initP
      velocities := zerosLike initP
      globalBest := none
      globalBestParticle := none
      record := m.candidates_score
      calls := []
      passes := 0 }
  match fitLoop X cvOracle thrs m.n_iter.toNat s0 with
  | .error e => .error e
  | .ok s =>
    match s.globalBestParticle with
    | none => .error "TypeError: NoneType object is not subscriptable"
    | some k =>
      .ok { m with
            n_iter := m.n_iter - (m.n_iter.toNat : Int)
            candidates_score := s.record
            best_score_ := s.globalBest
            best_features_ := some k.2
            best_proba_ :=
              some (k.2.map fun j => (s.particles.getD k.1 []).getD j 0)
            trace_calls := s.calls
            trace_passes := s.passes
            trace_particles := s.particles }

/-- Resetting the cache between two `fit` calls:
`model.candidates_score = {}`. -/
def resetCache (m : PSFS) : PSFS := { m with candidates_score := [] }

/-- The optional call produced by one row of the evaluation loop: `some`
exactly when the decoded subset passes the `any(particle)` test (the
record never blocks a call, see `pyMem_false`). -/
def passCall (X : Mat) (thr : Nat → ℚ) (p : Nat × List ℚ) : Option Call :=
  let s := decode p.2 (thr p.1)
  if s.any fun j => j != 0 then some (p.1, s, restrictCols X s) else none

/-! Concrete fixtures: a one-particle, two-feature instance driven by
explicit random draws, used to evaluate the embedding on closed runs. -/

/-- A 1×2 input matrix. -/
def X1 : Mat := [[1, 2]]

/-- Initial uniform draws for one particle over two features. -/
def init1 : Mat := [[1/2, 3/4]]

/-- Decoding thresholds: every draw is 1/4 (both features selected). -/
def thrs1 : Nat → Nat → ℚ := fun _ _ => 1/4

/-- A deterministic scoring oracle: a single fold score of 7/10. -/
def cv1 : Mat → List ℚ := fun _ => [7/10]

/-- An instance configured with a budget of two iterations. -/
def mTwo : PSFS :=
  { n_particles := 1
    cv := 3
    scoring := "accuracy"
    n_jobs := 1
    verbosity := 0
    n_iter := 2
    first_iter := 2
    candidates_score := []
    best_score_ := none
    best_features_ := none
    best_proba_ := none
    trace_calls := []
    trace_passes := 0
    trace_particles := [] }

/-- An instance configured with a budget of one iteration. -/
def mOne : PSFS := { mTwo with n_iter := 1, first_iter := 1 }

/-- The loop state at the start of a `fit` call on `mTwo`. -/
def s0Two : PSState :=
  { particles := init1
    velocities := zerosLike init1
    globalBest := none
    globalBestParticle := none
    record := []
    calls := []
    passes := 0 }

/-- The loop state after the first pass of a `fit` call on `mTwo`
(executed with counter value 2). -/
def s1Two : PSState := (fitStep X1 cv1 (thrs1 2) 2 s0Two).toOption.getD s0Two

/-- The instance returned by a first `fit` call on `mOne`. -/
def mOneResult : PSFS := (psfsFit mOne X1 init1 thrs1 cv1).toOption.getD mOne

/-- The instance returned by a first `fit` call on `mTwo`. -/
def mTwoResult : PSFS := (psfsFit mTwo X1 init1 thrs1 cv1).toOption.getD mTwo

/-! Helper lemmas about the embedding. -/

/-- Python equality between a compound `(row, subset)` dict key and a
bare subset tuple is always false: the second component of the key is a
tuple while every element of a subset tuple is an int. -/
theorem beq_keyObj_subsetObj (k : Key) (s : Subset) :
    PyObj.beq (keyObj k) (subsetObj s) = false := by
  cases s with
  | nil => rfl
  | cons a t =>
    cases t with
    | nil => simp [keyObj, subsetObj, PyObj.beq, PyObj.beqList]
    | cons b t2 => simp [keyObj, subsetObj, PyObj.beq, PyObj.beqList]

/-- The membership test of `_evaluate_performance` never finds a hit:
the bare subset is compared against compound keys only. -/
theorem pyMem_false (r : Record) (s : Subset) : pyMem r s = false := by
  simp [pyMem, beq_keyObj_subsetObj]

/-- `evalStep` with the membership test resolved: the record never
suppresses a call, so only the `any(particle)` test decides. -/
theorem evalStep_eq (X : Mat) (cvO : Mat → List ℚ) (i : Nat) (vals : List ℚ)
    (t : ℚ) (r : Record) (c : List Call) :
    evalStep X cvO i vals t (r, c) =
      if (decode vals t).any (fun j => j != 0) then
        (dictInsert r (i, decode vals t)
           (mean (cvO (restrictCols X (decode vals t)))),
         c ++ [(i, decode vals t, restrictCols X (decode vals t))])
      else (r, c) := by
  simp [evalStep, pyMem_false]

/-- The calls emitted by folding `evalStep` over a row list, with an
arbitrary starting record and call accumulator. -/
theorem foldl_calls (X : Mat) (cvO : Mat → List ℚ) (thr : Nat → ℚ) :
    ∀ (l : List (Nat × List ℚ)) (r : Record) (c : List Call),
      (l.foldl (fun acc p => evalStep X cvO p.1 p.2 (thr p.1) acc) (r, c)).2 =
        c ++ l.filterMap (passCall X thr) := by
  intro l
  induction l with
  | nil => intro r c; simp
  | cons p l ih =>
    intro r c
    rw [List.foldl_cons, evalStep_eq]
    cases hb : (decode p.2 (thr p.1)).any fun j => j != 0 with
    | true => simp only [if_pos rfl, hb, ih, passCall, List.filterMap_cons,
        if_pos]; simp [passCall, hb]
    | false => simp [hb, ih, passCall]

/-- The calls made during one evaluation pass are exactly the rows whose
decoded subset passes the `any(particle)` test. -/
theorem evaluatePass_calls (X : Mat) (cvO : Mat → List ℚ) (thr : Nat → ℚ)
    (P : Mat) (r : Record) :
    (evaluatePass X cvO thr P r).2 = P.enum.filterMap (passCall X thr) := by
  unfold evaluatePass
  rw [foldl_calls]
  simp

/-- A successful global-best update always yields a defined score: the
replacement branch stores the fresh maximum, and the keep branch is only
reachable when the stored score was already defined. -/
theorem updateGlobalBest_fst_isSome {res : Record} {gb : Option ℚ}
    {gbp : Option Key} {p : Option ℚ × Option Key}
    (h : updateGlobalBest res gb gbp = .ok p) : ∃ g, p.1 = some g := by
  unfold updateGlobalBest at h
  cases hd : dictArgmax res with
  | none => rw [hd] at h; exact absurd h (by simp)
  | some kv =>
    obtain ⟨ck, cb⟩ := kv
    rw [hd] at h
    dsimp only at h
    split at h
    · cases h
      exact ⟨cb, rfl⟩
    · next hcond =>
      cases h
      cases gb with
      | none => simp at hcond
      | some g => exact ⟨g, rfl⟩

/-- Inversion of a successful loop pass: the updated fields of the
resulting state, in terms of the incoming one. -/
theorem fitStep_ok_inv {X : Mat} {cvO : Mat → List ℚ} {thr : Nat → ℚ}
    {nIter : Int} {s s' : PSState}
    (h : fitStep X cvO thr nIter s = .ok s') :
    ∃ g k, s'.globalBest = some g ∧ s'.globalBestParticle = some k ∧
      s'.particles = matAdd s.particles s.velocities ∧
      s'.velocities = calcVelocities (matAdd s.particles s.velocities) k nIter ∧
      s'.record = (evaluatePass X cvO thr (matAdd s.particles s.velocities)
        s.record).1 ∧
      s'.calls = s.calls ++ (evaluatePass X cvO thr
        (matAdd s.particles s.velocities) s.record).2 ∧
      s'.passes = s.passes + 1 := by
  unfold fitStep at h
  dsimp only at h
  cases hu : updateGlobalBest
      (evaluatePass X cvO thr (matAdd s.particles s.velocities) s.record).1
      s.globalBest s.globalBestParticle with
  | error e => rw [hu] at h; exact absurd h (by simp)
  | ok p =>
    obtain ⟨gb, gbp⟩ := p
    rw [hu] at h
    cases gbp with
    | none => exact absurd h (by simp)
    | some k =>
      obtain ⟨g, hg⟩ := updateGlobalBest_fst_isSome hu
      cases h
      exact ⟨g, k, hg, rfl, rfl, rfl, rfl, rfl, rfl⟩

/-- Each completed pass increments the pass counter by one, so a
successful run of the loop with fuel `n` completes exactly `n` passes. -/
theorem fitLoop_passes {X : Mat} {cvO : Mat → List ℚ} {thrs : Nat → Nat → ℚ} :
    ∀ (n : Nat) (s s' : PSState),
      fitLoop X cvO thrs n s = .ok s' → s'.passes = s.passes + n := by
  intro n
  induction n with
  | zero =>
    intro s s' h
    unfold fitLoop at h
    cases h
    rfl
  | succ n ih =>
    intro s s' h
    unfold fitLoop at h
    cases hs : fitStep X cvO (thrs (n + 1)) ((n : Int) + 1) s with
    | error e => rw [hs] at h; exact absurd h (by simp)
    | ok s1 =>
      rw [hs] at h
      obtain ⟨g, k, _, _, _, _, _, _, hp⟩ := fitStep_ok_inv hs
      have := ih s1 s' h
      omega

/-- After at least one completed pass the global best is defined (both
the score and the identity). -/
theorem fitLoop_gb_some {X : Mat} {cvO : Mat → List ℚ} {thrs : Nat → Nat → ℚ} :
    ∀ (n : Nat) (s s' : PSState),
      fitLoop X cvO thrs (n + 1) s = .ok s' →
      (∃ g, s'.globalBest = some g) ∧ ∃ k, s'.globalBestParticle = some k := by
  intro n
  induction n with
  | zero =>
    intro s s' h
    unfold fitLoop at h
    split at h
    · exact absurd h (by simp)
    · next s1 hs =>
      unfold fitLoop at h
      cases h
      obtain ⟨g, k, hg, hk, _⟩ := fitStep_ok_inv hs
      exact ⟨⟨g, hg⟩, ⟨k, hk⟩⟩
  | succ n ih =>
    intro s s' h
    unfold fitLoop at h
    split at h
    · exact absurd h (by simp)
    · next s1 hs => exact ih s1 s' h

/-- Inversion of a successful `fit` call: the returned attributes in
terms of the final loop state. -/
theorem psfsFit_ok_inv {m : PSFS} {X initP : Mat} {thrs : Nat → Nat → ℚ}
    {cvO : Mat → List ℚ} {m' : PSFS}
    (h : psfsFit m X initP thrs cvO = .ok m') :
    ∃ s k, fitLoop X cvO thrs m.n_iter.toNat
        { particles := initP
          velocities := zerosLike initP
          globalBest := none
          globalBestParticle := none
          record := m.candidates_score
          calls := []
          passes := 0 } = .ok s ∧
      s.globalBestParticle = some k ∧
      m'.n_iter = m.n_iter - (m.n_iter.toNat : Int) ∧
      m'.best_score_ = s.globalBest ∧
      m'.best_features_ = some k.2 ∧
      m'.best_proba_ = some (k.2.map fun j => (s.particles.getD k.1 []).getD j 0) ∧
      m'.trace_calls = s.calls ∧
      m'.trace_passes = s.passes ∧
      m'.trace_particles = s.particles := by
  unfold psfsFit at h
  dsimp only at h
  split at h
  · exact absurd h (by simp)
  · next s hl =>
    split at h
    · exact absurd h (by simp)
    · next k hk =>
      cases h
      exact ⟨s, k, hl, hk, rfl, rfl, rfl, rfl, rfl, rfl, rfl⟩

/-- Row `i` of the recomputed velocity matrix. -/
theorem calcVelocities_getD {P : Mat} {k : Key} {d : Int} {i : Nat}
    (hi : i < P.length) :
    (calcVelocities P k d).getD i [] =
      List.zipWith (fun g p => (g - p) / (d : ℚ))
        (P.getD k.1 []) (P.getD i []) := by
  unfold calcVelocities
  simp only [List.getD_eq_getElem?_getD, List.getElem?_map,
    List.getElem?_eq_getElem hi, Option.map_some', Option.getD_some]

/-- Stepping a row toward itself gives the zero row. -/
theorem zipWith_sub_self_div (c : ℚ) (r : List ℚ) :
    List.zipWith (fun g p => (g - p) / c) r r = r.map fun _ => 0 := by
  induction r with
  | nil => rfl
  | cons a t ih => simp [ih]

/-! Claim theorems. -/

/-- C6: once the global best is defined, `_update_global_best` is
monotone: a successful update yields a score at least the stored one,
and it replaces the stored (score, identity) pair exactly when the
maximum recorded score strictly exceeds the stored score, leaving both
unchanged otherwise. -/
theorem C6_global_best_update_monotone (results : Record) (g : ℚ) (k : Key)
    (out : Option ℚ × Option Key)
    (h : updateGlobalBest results (some g) (some k) = .ok out) :
    (∃ g2, out.1 = some g2 ∧ g ≤ g2) ∧
      ((out.1 = some g ∧ out.2 = some k) ∨
        ∃ ck cb, dictArgmax results = some (ck, cb) ∧ g < cb ∧
          out.1 = some cb ∧ out.2 = some ck) := by
  unfold updateGlobalBest at h
  cases hd : dictArgmax results with
  | none => rw [hd] at h; exact absurd h (by simp)
  | some kv =>
    obtain ⟨ck, cb⟩ := kv
    rw [hd] at h
    dsimp only at h
    split at h
    · next hcond =>
      cases h
      have hlt : g < cb := by simpa using hcond
      exact ⟨⟨cb, rfl, le_of_lt hlt⟩, Or.inr ⟨ck, cb, rfl, hlt, rfl, rfl⟩⟩
    · next hcond =>
      cases h
      exact ⟨⟨g, rfl, le_refl g⟩, Or.inl ⟨rfl, rfl⟩⟩

/-- C6 witness: with a stored score of 3 and a record whose maximum is
5, the update replaces the global best by (5, (0, (1,))). -/
theorem C6_global_best_update_monotone_witness :
    (∃ g2, ((some (5 : ℚ), some ((0, [1]) : Key)) :
        Option ℚ × Option Key).1 = some g2 ∧ (3 : ℚ) ≤ g2) ∧
      ((((some (5 : ℚ), some ((0, [1]) : Key)) :
            Option ℚ × Option Key).1 = some (3 : ℚ) ∧
          ((some (5 : ℚ), some ((0, [1]) : Key)) :
            Option ℚ × Option Key).2 = some ((1, [2]) : Key)) ∨
        ∃ ck cb, dictArgmax [(((0, [1]) : Key), (5 : ℚ))] = some (ck, cb) ∧
          (3 : ℚ) < cb ∧
          ((some (5 : ℚ), some ((0, [1]) : Key)) :
            Option ℚ × Option Key).1 = some cb ∧
          ((some (5 : ℚ), some ((0, [1]) : Key)) :
            Option ℚ × Option Key).2 = some ck) :=
  C6_global_best_update_monotone [((0, [1]), 5)] 3 (1, [2])
    (some 5, some (0, [1])) (by decide)

/-- C7: a loop pass executed with counter value `n + 1` recomputes the
velocity matrix by `calcVelocities` with divisor `n + 1` (the counter
value before the decrement: the loop continues with fuel `n`); every row
`i` of the new velocity matrix is
`(global best row - row i) / (n + 1)`, and the global-best particle's
own row is the zero vector. -/
theorem C7_velocity_update_rule (X : Mat) (cvO : Mat → List ℚ)
    (thrs : Nat → Nat → ℚ) (n : Nat) (s s1 : PSState)
    (h : fitStep X cvO (thrs (n + 1)) ((n : Int) + 1) s = .ok s1) :
    fitLoop X cvO thrs (n + 1) s = fitLoop X cvO thrs n s1 ∧
    ∃ k, s1.globalBestParticle = some k ∧
      s1.velocities = calcVelocities s1.particles k ((n : Int) + 1) ∧
      (∀ i, i < s1.particles.length →
        s1.velocities.getD i [] =
          List.zipWith (fun g p => (g - p) / (((n : Int) + 1 : Int) : ℚ))
            (s1.particles.getD k.1 []) (s1.particles.getD i [])) ∧
      (k.1 < s1.particles.length →
        s1.velocities.getD k.1 [] =
          (s1.particles.getD k.1 []).map fun _ => 0) := by
  constructor
  · have h2 : fitLoop X cvO thrs (n + 1) s =
        match fitStep X cvO (thrs (n + 1)) ((n : Int) + 1) s with
        | Except.error e => Except.error e
        | Except.ok s2 => fitLoop X cvO thrs n s2 := rfl
    rw [h2, h]
  · obtain ⟨g, k, hg, hk, hp, hv, _⟩ := fitStep_ok_inv h
    have hA : s1.velocities = calcVelocities s1.particles k ((n : Int) + 1) := by
      rw [hv, hp]
    refine ⟨k, hk, hA, ?_, ?_⟩
    · intro i hi
      rw [hA]
      exact calcVelocities_getD hi
    · intro hkl
      rw [hA, calcVelocities_getD hkl, zipWith_sub_self_div]

/-- C7 witness: the first pass of the two-iteration fixture run, whose
counter value is 2. -/
theorem C7_velocity_update_rule_witness :
    fitLoop X1 cv1 thrs1 (1 + 1) s0Two = fitLoop X1 cv1 thrs1 1 s1Two ∧
    ∃ k, s1Two.globalBestParticle = some k ∧
      s1Two.velocities = calcVelocities s1Two.particles k (((1 : Nat) : Int) + 1) ∧
      (∀ i, i < s1Two.particles.length →
        s1Two.velocities.getD i [] =
          List.zipWith (fun g p => (g - p) / ((((1 : Nat) : Int) + 1 : Int) : ℚ))
            (s1Two.particles.getD k.1 []) (s1Two.particles.getD i [])) ∧
      (k.1 < s1Two.particles.length →
        s1Two.velocities.getD k.1 [] =
          (s1Two.particles.getD k.1 []).map fun _ => 0) :=
  C7_velocity_update_rule X1 cv1 thrs1 1 s0Two s1Two (by decide)

/-- C8: with a positive budget `k`, a completed `fit` run performs
exactly `k` loop passes and leaves the counter at zero; each pass
increments the pass count by exactly one, and the loop with fuel
`n + 1` is one step at counter `n + 1` followed by the loop with fuel
`n` — a fixed-length loop with no convergence check. -/
theorem C8_loop_runs_exact_budget (X initP : Mat) (cvO : Mat → List ℚ)
    (thrs : Nat → Nat → ℚ) (m m' : PSFS) (k : Nat)
    (hk : 0 < k) (hm : m.n_iter = (k : Int))
    (h : psfsFit m X initP thrs cvO = .ok m') :
    m'.trace_passes = k ∧ m'.n_iter = 0 ∧
      (∀ (t : Nat → ℚ) (d : Int) (s s' : PSState),
        fitStep X cvO t d s = .ok s' → s'.passes = s.passes + 1) ∧
      (∀ (n : Nat) (s : PSState),
        fitLoop X cvO thrs (n + 1) s =
          Except.bind (fitStep X cvO (thrs (n + 1)) ((n : Int) + 1) s)
            (fitLoop X cvO thrs n)) := by
  obtain ⟨s, k2, hl, hk2, hniter, _, _, _, _, htp, _⟩ := psfsFit_ok_inv h
  have h1 := fitLoop_passes _ _ _ hl
  refine ⟨?_, ?_, ?_, ?_⟩
  · rw [htp, h1]
    show 0 + m.n_iter.toNat = k
    omega
  · rw [hniter]
    omega
  · intro t d s1 s2 hstep
    obtain ⟨_, _, _, _, _, _, _, _, hp⟩ := fitStep_ok_inv hstep
    exact hp
  · intro n s1
    unfold fitLoop
    cases hs : fitStep X cvO (thrs (n + 1)) ((n : Int) + 1) s1 with
    | error e => rfl
    | ok s2 => rfl

/-- C8 witness: the two-iteration fixture run completes exactly two
passes and leaves the counter at zero. -/
theorem C8_loop_runs_exact_budget_witness :
    mTwoResult.trace_passes = 2 ∧ mTwoResult.n_iter = 0 ∧
      (∀ (t : Nat → ℚ) (d : Int) (s s' : PSState),
        fitStep X1 cv1 t d s = .ok s' → s'.passes = s.passes + 1) ∧
      (∀ (n : Nat) (s : PSState),
        fitLoop X1 cv1 thrs1 (n + 1) s =
          Except.bind (fitStep X1 cv1 (thrs1 (n + 1)) ((n : Int) + 1) s)
            (fitLoop X1 cv1 thrs1 n)) :=
  C8_loop_runs_exact_budget X1 init1 cv1 thrs1 mTwo mTwoResult 2
    (by decide) (by decide) (by decide)

/-- C9: a particle whose decoded subset is empty never reaches the
scoring collaborator: no call of the evaluation pass carries its row
index. -/
theorem C9_empty_subset_never_scored (X : Mat) (cvO : Mat → List ℚ)
    (thr : Nat → ℚ) (P : Mat) (r : Record) (i : Nat)
    (h : decode (P.getD i []) (thr i) = []) :
    ∀ c ∈ (evaluatePass X cvO thr P r).2, c.1 ≠ i := by
  intro c hc hci
  rw [evaluatePass_calls] at hc
  obtain ⟨p, hp, hpc⟩ := List.mem_filterMap.mp hc
  unfold passCall at hpc
  dsimp only at hpc
  split at hpc
  · next hb =>
    cases hpc
    have hg : P[p.1]? = some p.2 := List.mem_enum_iff_getElem?.mp hp
    have hpi : p.1 = i := hci
    rw [hpi] at hg hb
    have h2 : P.getD i [] = p.2 := by
      rw [List.getD_eq_getElem?_getD, hg]
      rfl
    rw [← h2, h] at hb
    simp at hb
  · exact absurd hpc (by simp)

/-- C9 witness: a particle whose single probability 1/2 falls below the
threshold 3/4 decodes to the empty subset, and the pass makes no call
for its row. -/
theorem C9_empty_subset_never_scored_witness :
    decode ([[(1 : ℚ)/2]].getD 0 []) ((fun _ => (3 : ℚ)/4) 0) = [] ∧
      ∀ c ∈ (evaluatePass X1 cv1 (fun _ => (3 : ℚ)/4) [[(1 : ℚ)/2]] []).2,
        c.1 ≠ 0 :=
  ⟨by decide,
    C9_empty_subset_never_scored X1 cv1 (fun _ => (3 : ℚ)/4) [[(1 : ℚ)/2]]
      [] 0 (by decide)⟩

/-- C1 counterexample: in the two-iteration fixture run the pair
(row 0, subset (0, 1)) is decoded in both passes; after the first pass
its score 7/10 is recorded (and exactly one call was made), yet the full
run makes two collaborator calls for that exact key — the recorded score
does not prevent the second invocation. -/
theorem C1_counterexample_reencounter_reinvokes :
    Except.map (fun s => (s.record, s.calls.length))
        (fitStep X1 cv1 (thrs1 2) 2 s0Two) =
      Except.ok ([((0, [0, 1]), 7/10)], 1) ∧
    Except.map (fun m => m.trace_calls.countP fun c =>
        decide (c = ((0, [0, 1], [[1, 2]]) : Call)))
      (psfsFit mTwo X1 init1 thrs1 cv1) = Except.ok 2 := by
  exact ⟨by decide, by decide⟩

/-- C1: amended — re-encountering a (row, subset) pair whose score is
already recorded does re-invoke the collaborator for that key: the
membership test compares the bare subset against compound keys and never
finds a hit, so any row whose decoded subset passes the `any(particle)`
test is scored again. -/
theorem C1_amended_reencounter_reinvokes (X : Mat) (cvO : Mat → List ℚ)
    (thr : Nat → ℚ) (P : Mat) (r : Record) (i : Nat) (s : Subset) (v : ℚ)
    (hi : i < P.length)
    (hd : decode (P.getD i []) (thr i) = s)
    (ha : (s.any fun j => j != 0) = true)
    (hrec : ((i, s), v) ∈ r) :
    (i, s, restrictCols X s) ∈ (evaluatePass X cvO thr P r).2 := by
  rw [evaluatePass_calls]
  apply List.mem_filterMap.mpr
  refine ⟨(i, P.getD i []), ?_, ?_⟩
  · apply List.mem_enum_iff_getElem?.mpr
    rw [List.getD_eq_getElem?_getD, List.getElem?_eq_getElem hi]
    rfl
  · unfold passCall
    dsimp only
    rw [hd]
    simp [ha]

/-- C1 amended witness: row 0 decodes to (0, 1), whose score is already
recorded under the key (0, (0, 1)), and the pass still calls the
collaborator for it. -/
theorem C1_amended_reencounter_reinvokes_witness :
    0 < ([[(1 : ℚ)/2, 3/4]] : Mat).length ∧
    decode (([[(1 : ℚ)/2, 3/4]] : Mat).getD 0 []) (thrs1 1 0) = [0, 1] ∧
    (([0, 1] : Subset).any fun j => j != 0) = true ∧
    (((0, [0, 1]), (7 : ℚ)/10) ∈ ([(((0 : Nat), [0, 1]), (7 : ℚ)/10)] : Record)) ∧
    ((0 : Nat), [0, 1], restrictCols X1 [0, 1]) ∈
      (evaluatePass X1 cv1 (thrs1 1) [[(1 : ℚ)/2, 3/4]]
        [(((0 : Nat), [0, 1]), (7 : ℚ)/10)]).2 :=
  ⟨by decide, by decide, by decide, by decide,
    C1_amended_reencounter_reinvokes X1 cv1 (thrs1 1) [[(1 : ℚ)/2, 3/4]]
      [(((0 : Nat), [0, 1]), (7 : ℚ)/10)] 0 [0, 1] (7/10)
      (by decide) (by decide) (by decide) (by decide)⟩

/-- C2 code-bug exhibit: the particle (0.9, 0.1) with threshold 0.5
decodes to the non-empty subset (0,), which is not cached (the record is
empty), yet the pass makes no collaborator call and records nothing:
`any(particle)` is false because the only selected index is the falsy
feature 0, contradicting the code's own comment and the claim. -/
theorem C2_subset_with_only_feature_zero_skipped :
    decode [9/10, 1/10] (1/2) = [0] ∧
    evaluatePass X1 (fun _ => [1]) (fun _ => 1/2) [[9/10, 1/10]] [] =
      ([], []) := by
  exact ⟨by decide, by decide⟩

/-- C3 counterexample: the first `fit` call on the one-iteration fixture
succeeds, but a second call on the returned instance — with the cache
reset and the very same random draws — raises a `TypeError` instead of
reproducing the first FitResult, because `n_iter` is still 0. -/
theorem C3_counterexample_second_fit_raises :
    (psfsFit mOne X1 init1 thrs1 cv1).toOption.isSome = true ∧
    Except.bind (psfsFit mOne X1 init1 thrs1 cv1)
        (fun m1 => psfsFit (resetCache m1) X1 init1 thrs1 cv1) =
      Except.error "TypeError: NoneType object is not subscriptable" := by
  exact ⟨by decide, by decide⟩

/-- C3: amended — a completed `fit` call with a positive budget leaves
`n_iter` at 0, so a second `fit` call on the returned instance (even
with the cache reset and any fresh data and random draws) performs zero
loop passes and raises from subscripting the undefined global best,
rather than reproducing the first FitResult. -/
theorem C3_amended_second_fit_errors (m : PSFS) (X initP : Mat)
    (thrs : Nat → Nat → ℚ) (cvO : Mat → List ℚ) (m' : PSFS)
    (h0 : 0 < m.n_iter) (h : psfsFit m X initP thrs cvO = .ok m') :
    m'.n_iter = 0 ∧
      ∀ (X2 i2 : Mat) (t2 : Nat → Nat → ℚ) (c2 : Mat → List ℚ),
        psfsFit (resetCache m') X2 i2 t2 c2 =
          Except.error "TypeError: NoneType object is not subscriptable" := by
  obtain ⟨s, k2, hl, hk2, hniter, _⟩ := psfsFit_ok_inv h
  have hz : m'.n_iter = 0 := by rw [hniter]; omega
  refine ⟨hz, ?_⟩
  intro X2 i2 t2 c2
  have h1 : (resetCache m').n_iter = 0 := hz
  unfold psfsFit
  rw [h1]
  rfl

/-- C3 amended witness: the instance returned by the fixture run. -/
theorem C3_amended_second_fit_errors_witness :
    mOneResult.n_iter = 0 ∧
      psfsFit (resetCache mOneResult) X1 init1 thrs1 cv1 =
        Except.error "TypeError: NoneType object is not subscriptable" := by
  have h := C3_amended_second_fit_errors mOne X1 init1 thrs1 cv1 mOneResult
    (by decide) (by decide)
  exact ⟨h.1, h.2 X1 init1 thrs1 cv1⟩

/-- C4 counterexample: a one-particle, one-iteration run whose single
particle decodes to the empty subset scores nothing, and `fit` raises a
`ValueError` from the argmax of the empty record during the first pass —
it does not terminate with the FitResult merely left undefined. -/
theorem C4_counterexample_error_when_nothing_scored :
    decode [1/2] (3/4) = [] ∧
    psfsFit mOne [[1]] [[1/2]] (fun _ _ => 3/4) cv1 =
      Except.error "attempt to get argmax of an empty sequence" := by
  exact ⟨by decide, by decide⟩

/-- C4: amended — with budget `n + 1`, a `fit` call that returns
normally has performed exactly `n + 1` passes and exposes a fully
defined FitResult; but when the first evaluation pass records nothing
(no subset ever scored), `fit` raises the argmax error inside the first
pass instead of terminating with the FitResult left undefined. -/
theorem C4_amended_fit_result_definedness (X initP : Mat)
    (cvO : Mat → List ℚ) (thrs : Nat → Nat → ℚ) (m m' : PSFS) (n : Nat)
    (hm : m.n_iter = ((n + 1 : Nat) : Int)) :
    (psfsFit m X initP thrs cvO = .ok m' →
      m'.trace_passes = n + 1 ∧ m'.best_score_.isSome = true ∧
        m'.best_features_.isSome = true ∧ m'.best_proba_.isSome = true) ∧
    ((evaluatePass X cvO (thrs (n + 1)) (matAdd initP (zerosLike initP))
        m.candidates_score).1 = [] →
      psfsFit m X initP thrs cvO =
        Except.error "attempt to get argmax of an empty sequence") := by
  have htn : m.n_iter.toNat = n + 1 := by omega
  constructor
  · intro h
    obtain ⟨s, k2, hl, hk2, hniter, hbs, hbf, hbp, htc, htp, _⟩ :=
      psfsFit_ok_inv h
    rw [htn] at hl
    have h1 := fitLoop_passes _ _ _ hl
    obtain ⟨⟨g, hg⟩, _⟩ := fitLoop_gb_some _ _ _ hl
    refine ⟨?_, ?_, ?_, ?_⟩
    · rw [htp, h1]
      show 0 + (n + 1) = n + 1
      omega
    · rw [hbs, hg]
      rfl
    · rw [hbf]
      rfl
    · rw [hbp]
      rfl
  · intro he
    have hstep : fitLoop X cvO thrs (n + 1)
        { particles := initP
          velocities := zerosLike initP
          globalBest := none
          globalBestParticle := none
          record := m.candidates_score
          calls := []
          passes := 0 } =
        Except.error "attempt to get argmax of an empty sequence" := by
      unfold fitLoop fitStep
      dsimp only
      rw [he]
      rfl
    unfold psfsFit
    dsimp only
    rw [htn, hstep]

/-- C4 amended witness: the two-iteration fixture run (budget 1 + 1). -/
theorem C4_amended_fit_result_definedness_witness :
    (psfsFit mTwo X1 init1 thrs1 cv1 = .ok mTwoResult →
      mTwoResult.trace_passes = 1 + 1 ∧
        mTwoResult.best_score_.isSome = true ∧
        mTwoResult.best_features_.isSome = true ∧
        mTwoResult.best_proba_.isSome = true) ∧
    ((evaluatePass X1 cv1 (thrs1 (1 + 1)) (matAdd init1 (zerosLike init1))
        mTwo.candidates_score).1 = [] →
      psfsFit mTwo X1 init1 thrs1 cv1 =
        Except.error "attempt to get argmax of an empty sequence") :=
  C4_amended_fit_result_definedness X1 init1 cv1 thrs1 mTwo mTwoResult 1
    (by decide)

/-- C5 counterexample: the constructor accepts a particle count of 0, a
fold count of 0 and an iteration budget of -2 — none of them positive —
without raising a configuration error. -/
theorem C5_counterexample_nonpositive_accepted :
    (psfsInit (.int 0) .obj (.int 0) (.str "accuracy") (.int (-2)) (.int 1)
        (.int 0)).toOption.isSome = true := by
  decide

/-- C5: amended — construction fails with a configuration error whenever
the particle count, the fold count or the iteration budget is not an
integer (an eager `isinstance` type check, before any computation);
positivity is not validated. -/
theorem C5_amended_integer_type_check_only
    (np est cvv sc mi nj vb : PyVal)
    (h : np.isInt = false ∨ cvv.isInt = false ∨ mi.isInt = false) :
    ∃ e, psfsInit np est cvv sc mi nj vb = Except.error e := by
  unfold psfsInit
  cases mi with
  | int mi2 =>
    cases np with
    | int np2 =>
      cases vb with
      | int vb2 =>
        cases cvv with
        | int cvv2 => rcases h with h | h | h <;> simp [PyVal.isInt] at h
        | str s => exact ⟨_, rfl⟩
        | float q => exact ⟨_, rfl⟩
        | obj => exact ⟨_, rfl⟩
      | str s => exact ⟨_, rfl⟩
      | float q => exact ⟨_, rfl⟩
      | obj => exact ⟨_, rfl⟩
    | str s => exact ⟨_, rfl⟩
    | float q => exact ⟨_, rfl⟩
    | obj => exact ⟨_, rfl⟩
  | str s => exact ⟨_, rfl⟩
  | float q => exact ⟨_, rfl⟩
  | obj => exact ⟨_, rfl⟩

/-- C5 amended witness: a string particle count is rejected. -/
theorem C5_amended_integer_type_check_only_witness :
    ((PyVal.str "x").isInt = false ∨ (PyVal.int 3).isInt = false ∨
      (PyVal.int 5).isInt = false) ∧
    ∃ e, psfsInit (.str "x") .obj (.int 3) (.str "accuracy") (.int 5)
        (.int 1) (.int 0) = Except.error e :=
  ⟨by decide,
    C5_amended_integer_type_check_only (.str "x") .obj (.int 3)
      (.str "accuracy") (.int 5) (.int 1) (.int 0) (by decide)⟩

/-- C10 counterexample: in the two-iteration fixture run the global best
is already set after the first pass (score 7/10), the winning particle's
probabilities at decode time are (1/2, 3/4), and `best_proba_` equals
exactly those values: the winning row does not drift, contradicting the
claim that `best_proba_` reflects drifted end-of-run values different
from the values held when the subset was scored. -/
theorem C10_counterexample_no_drift :
    Except.map (fun s => (s.globalBest, s.globalBestParticle, s.passes))
        (fitStep X1 cv1 (thrs1 2) 2 s0Two) =
      Except.ok (some ((7 : ℚ)/10), some ((0 : Nat), [0, 1]), 1) ∧
    Except.map (fun m => (m.best_score_, m.best_proba_, m.trace_passes))
        (psfsFit mTwo X1 init1 thrs1 cv1) =
      Except.ok (some ((7 : ℚ)/10), some [(1 : ℚ)/2, 3/4], 2) ∧
    matAdd init1 (zerosLike init1) = [[(1 : ℚ)/2, 3/4]] := by
  exact ⟨by decide, by decide, by decide⟩

/-- C10: amended — `best_proba_` is read from the particle matrix as it
stands after the final pass's position update (the winning row
restricted to the winning subset); and since the global-best particle's
velocity row is always the zero vector, that row does not drift while it
holds the global best, so `best_proba_` can coincide exactly with the
values held when the winning subset was scored. -/
theorem C10_amended_best_proba_from_final_matrix (m : PSFS)
    (X initP : Mat) (thrs : Nat → Nat → ℚ) (cvO : Mat → List ℚ) (m' : PSFS)
    (h : psfsFit m X initP thrs cvO = .ok m') :
    (∃ k : Key, m'.best_features_ = some k.2 ∧
        m'.best_proba_ =
          some (k.2.map fun j => (m'.trace_particles.getD k.1 []).getD j 0)) ∧
      ∀ (P : Mat) (gk : Key) (d : Int), gk.1 < P.length →
        (calcVelocities P gk d).getD gk.1 [] =
          (P.getD gk.1 []).map fun _ => 0 := by
  constructor
  · obtain ⟨s, k, hl, hk, hni, hbs, hbf, hbp, htc, htp, htpart⟩ :=
      psfsFit_ok_inv h
    refine ⟨k, hbf, ?_⟩
    rw [hbp, htpart]
  · intro P gk d hlt
    rw [calcVelocities_getD hlt, zipWith_sub_self_div]

/-- C10 amended witness: the two-iteration fixture run, and the zero
velocity row of the global-best particle on its own matrix. -/
theorem C10_amended_best_proba_from_final_matrix_witness :
    (∃ k : Key, mTwoResult.best_features_ = some k.2 ∧
        mTwoResult.best_proba_ = some (k.2.map fun j =>
          (mTwoResult.trace_particles.getD k.1 []).getD j 0)) ∧
      (calcVelocities [[(1 : ℚ)/2, 3/4]] ((0 : Nat), [0, 1]) 2).getD
          ((0 : Nat), ([0, 1] : Subset)).1 [] =
        (([[(1 : ℚ)/2, 3/4]] : Mat).getD ((0 : Nat), ([0, 1] : Subset)).1
            []).map fun _ => 0 := by
  have h := C10_amended_best_proba_from_final_matrix mTwo X1 init1 thrs1 cv1
    mTwoResult (by decide)
  exact ⟨h.1, h.2 [[(1 : ℚ)/2, 3/4]] ((0 : Nat), [0, 1]) 2 (by decide)⟩

end PSOpt
